import Mathlib

/-!
Shallow embedding of the contract-intelligence service
(`app/main.py`, `app/models.py`, `app/services/{pdf,rag,extraction,audit}_service.py`,
`app/utils/db.py`).

Strings are modelled as `List Char` (Python `str` by code points).  The
external text-completion provider is out of scope: each service takes the
provider's reply (or failure) as an explicit argument of type
`Except (List Char) _`, mirroring the `try/except` structure of the Python
code.  File-system and network effects are likewise parameters.
-/

set_option autoImplicit false

/-- Python `str.strip()` whitespace set restricted to ASCII:
space, tab, newline, carriage return, vertical tab, form feed. -/
def isPySpace (c : Char) : Bool :=
  c = ' ' || c = '\t' || c = '\n' || c = '\r' || c.toNat = 11 || c.toNat = 12

/-- Python `str.lstrip()` on a code-point list. -/
def leftTrim (l : List Char) : List Char := l.dropWhile isPySpace

/-- Python `str.rstrip()` on a code-point list. -/
def rightTrim (l : List Char) : List Char := (l.reverse.dropWhile isPySpace).reverse

/-- Python `str.strip()`: remove leading and trailing whitespace. -/
def pyStrip (l : List Char) : List Char := rightTrim (leftTrim l)

/-- Decimal digits of a natural number, most significant first
(Python `str(n)` for a non-negative int).  Fuel-based so the kernel can
evaluate it; `fuel = n + 1` always suffices. -/
def natDigitsAux : Nat → Nat → List Char
  | 0, _ => []
  | fuel + 1, n =>
    if n < 10 then [Char.ofNat (48 + n)]
    else natDigitsAux fuel (n / 10) ++ [Char.ofNat (48 + n % 10)]

/-- Python `str(n)` for `n : Nat`. -/
def natDigits (n : Nat) : List Char := natDigitsAux (n + 1) n

/-- Numeric value of a list of decimal digit characters (Python `int(s)`
on a non-empty digit string). -/
def digitsVal (ds : List Char) : Nat :=
  ds.foldl (fun a c => 10 * a + (c.toNat - 48)) 0

/-- Python `sep.join(parts)`. -/
def joinSep (sep : List Char) : List (List Char) → List Char
  | [] => []
  | [x] => x
  | x :: xs => x ++ sep ++ joinSep sep xs

/-- One attempt to match the regex `\[PAGE (\d+)\]` at the head of the
input (`rag_service.py` line 146).  On success returns the captured page
number and the input remaining after the whole match.  `\d` is modelled
as the ASCII digits (Python's `\d` also accepts other Unicode decimal
digits; the markers this code scans are generated by
`extract_text_from_pdf` with ASCII digits). -/
def matchPageMarker : List Char → Option (Nat × List Char)
  | '[' :: 'P' :: 'A' :: 'G' :: 'E' :: ' ' :: rest =>
    let ds := rest.takeWhile Char.isDigit
    let after := rest.dropWhile Char.isDigit
    if ds.isEmpty then none
    else
      match after with
      | ']' :: tail => some (digitsVal ds, tail)
      | _ => none
  | _ => none

/-- Left-to-right non-overlapping scan for `\[PAGE (\d+)\]`, i.e.
`re.findall(r'\[PAGE (\d+)\]', text)` in `RAGService._extract_citations`.
Fuel-based: each step consumes at least one character, so
`fuel = input length` never runs out early. -/
def scanPages : Nat → List Char → List Nat
  | 0, _ => []
  | _ + 1, [] => []
  | fuel + 1, c :: rest =>
    match matchPageMarker (c :: rest) with
    | some (n, after) => n :: scanPages fuel after
    | none => scanPages fuel rest

/-- All page numbers captured by `re.findall(r'\[PAGE (\d+)\]', text)`,
in order of occurrence. -/
def findPageMarkers (l : List Char) : List Nat := scanPages l.length l

/-- Python `s.replace(pat, "")` for a non-empty `pat`: remove all
left-to-right non-overlapping occurrences.  Fuel-based; each step consumes
at least one character. -/
def removeAllAux (pat : List Char) : Nat → List Char → List Char
  | 0, l => l
  | _ + 1, [] => []
  | fuel + 1, c :: rest =>
    if pat.isPrefixOf (c :: rest) then
      removeAllAux pat fuel ((c :: rest).drop pat.length)
    else
      c :: removeAllAux pat fuel rest

/-- Python `s.replace(pat, "")`. -/
def removeAll (pat l : List Char) : List Char := removeAllAux pat l.length l

/-! ## JSON values and a model of Python `json.loads` -/

/-- Parsed JSON values.  Numbers are kept as exact rationals (Python
produces `int`/`float`; no claim inspects numeric values).  Objects are
association lists in source order; lookups take the last occurrence of a
key, matching `dict` construction by the Python parser. -/
inductive Jval where
  | null
  | bool (b : Bool)
  | num (q : ℚ)
  | str (s : List Char)
  | arr (xs : List Jval)
  | obj (kvs : List (List Char × Jval))

/-- JSON tokens. -/
inductive Jtok where
  | lcurly | rcurly | lsquare | rsquare | colon | comma
  | jstr (s : List Char)
  | jnum (q : ℚ)
  | jtrue | jfalse | jnull
  deriving DecidableEq

/-- Value of a hexadecimal digit. -/
def hexVal (c : Char) : Option Nat :=
  if '0' ≤ c ∧ c ≤ '9' then some (c.toNat - 48)
  else if 'a' ≤ c ∧ c ≤ 'f' then some (c.toNat - 87)
  else if 'A' ≤ c ∧ c ≤ 'F' then some (c.toNat - 55)
  else none

/-- JSON string body (opening quote already consumed): processes escape
sequences, rejects raw control characters (the parser's default strict
mode).  `\uXXXX` becomes the scalar with that code, without surrogate-pair
combination (no claim exercises this corner).  Returns the decoded string
and the input after the closing quote. -/
def parseStrBody : Nat → List Char → Option (List Char × List Char)
  | 0, _ => none
  | _ + 1, [] => none
  | fuel + 1, c :: rest =>
    if c = '"' then some ([], rest)
    else if c = '\\' then
      match rest with
      | [] => none
      | e :: rest2 =>
        if e = '"' then (parseStrBody fuel rest2).map (fun p => ('"' :: p.1, p.2))
        else if e = '\\' then (parseStrBody fuel rest2).map (fun p => ('\\' :: p.1, p.2))
        else if e = '/' then (parseStrBody fuel rest2).map (fun p => ('/' :: p.1, p.2))
        else if e = 'b' then (parseStrBody fuel rest2).map (fun p => (Char.ofNat 8 :: p.1, p.2))
        else if e = 'f' then (parseStrBody fuel rest2).map (fun p => (Char.ofNat 12 :: p.1, p.2))
        else if e = 'n' then (parseStrBody fuel rest2).map (fun p => ('\n' :: p.1, p.2))
        else if e = 'r' then (parseStrBody fuel rest2).map (fun p => ('\r' :: p.1, p.2))
        else if e = 't' then (parseStrBody fuel rest2).map (fun p => ('\t' :: p.1, p.2))
        else if e = 'u' then
          match rest2 with
          | h1 :: h2 :: h3 :: h4 :: rest3 =>
            match hexVal h1, hexVal h2, hexVal h3, hexVal h4 with
            | some a, some b, some c2, some d =>
              (parseStrBody fuel rest3).map
                (fun p => (Char.ofNat (((a * 16 + b) * 16 + c2) * 16 + d) :: p.1, p.2))
            | _, _, _, _ => none
          | _ => none
        else none
    else if c.toNat < 32 then none
    else (parseStrBody fuel rest).map (fun p => (c :: p.1, p.2))

/-- Exponent part of a JSON number, after the `e`/`E`.  If no digits
follow, the match backtracks: nothing is consumed (`fallback`). -/
def parseExpDigits (l : List Char) (fallback : List Char) : Bool × List Char × List Char :=
  let p : Bool × List Char :=
    match l with
    | '+' :: r => (false, r)
    | '-' :: r => (true, r)
    | _ => (false, l)
  let ds := p.2.takeWhile Char.isDigit
  if ds.isEmpty then (false, [], fallback)
  else (p.1, ds, p.2.dropWhile Char.isDigit)

/-- The number token of Python's JSON scanner: maximal match of
`(-?(?:0|[1-9]\d+|[0-9]))(\.\d+)?([eE][+-]?\d+)?` — an optional minus, an
integer part with no leading zeros, optional fraction, optional exponent.
The value is returned as an exact rational. -/
def parseJnum (l : List Char) : Option (ℚ × List Char) :=
  let sp : Bool × List Char :=
    match l with
    | '-' :: r => (true, r)
    | _ => (false, l)
  match sp.2 with
  | [] => none
  | c :: r =>
    if ¬ c.isDigit then none
    else
      let ip : List Char × List Char :=
        if c = '0' then ([c], r)
        else (c :: r.takeWhile Char.isDigit, r.dropWhile Char.isDigit)
      let fp : List Char × List Char :=
        match ip.2 with
        | '.' :: r2 =>
          if (r2.takeWhile Char.isDigit).isEmpty then ([], ip.2)
          else (r2.takeWhile Char.isDigit, r2.dropWhile Char.isDigit)
        | _ => ([], ip.2)
      let ep := parseExpDigits (fp.2.drop 1) fp.2
      let hasExp : Bool :=
        match fp.2 with
        | 'e' :: _ => true
        | 'E' :: _ => true
        | _ => false
      let expPart : Bool × List Char × List Char :=
        if hasExp then ep else (false, [], fp.2)
      let mant : ℚ := (digitsVal ip.1 : ℚ) + (digitsVal fp.1 : ℚ) / ((10 : ℚ) ^ fp.1.length)
      let scaled : ℚ :=
        if expPart.1 then mant / (10 : ℚ) ^ digitsVal expPart.2.1
        else mant * (10 : ℚ) ^ digitsVal expPart.2.1
      some (if sp.1 then -scaled else scaled, expPart.2.2)

/-- JSON insignificant whitespace. -/
def isJsonWs (c : Char) : Bool := c = ' ' || c = '\t' || c = '\n' || c = '\r'

/-- Tokenizer for `json.loads`.  Fuel-based: every token consumes at least
one character, so `fuel = input length` never runs out early. -/
def lexJson : Nat → List Char → Option (List Jtok)
  | 0, l => if l.isEmpty then some [] else none
  | _ + 1, [] => some []
  | fuel + 1, c :: rest =>
    if isJsonWs c then lexJson fuel rest
    else if c = Char.ofNat 123 then (lexJson fuel rest).map (Jtok.lcurly :: ·)
    else if c = Char.ofNat 125 then (lexJson fuel rest).map (Jtok.rcurly :: ·)
    else if c = '[' then (lexJson fuel rest).map (Jtok.lsquare :: ·)
    else if c = ']' then (lexJson fuel rest).map (Jtok.rsquare :: ·)
    else if c = ':' then (lexJson fuel rest).map (Jtok.colon :: ·)
    else if c = ',' then (lexJson fuel rest).map (Jtok.comma :: ·)
    else if c = '"' then
      match parseStrBody rest.length rest with
      | some (s, r) => (lexJson fuel r).map (Jtok.jstr s :: ·)
      | none => none
    else if c = 't' then
      if ['r', 'u', 'e'].isPrefixOf rest then (lexJson fuel (rest.drop 3)).map (Jtok.jtrue :: ·)
      else none
    else if c = 'f' then
      if ['a', 'l', 's', 'e'].isPrefixOf rest then (lexJson fuel (rest.drop 4)).map (Jtok.jfalse :: ·)
      else none
    else if c = 'n' then
      if ['u', 'l', 'l'].isPrefixOf rest then (lexJson fuel (rest.drop 3)).map (Jtok.jnull :: ·)
      else none
    else
      match parseJnum (c :: rest) with
      | some (q, r) => (lexJson fuel r).map (Jtok.jnum q :: ·)
      | none => none

/-- Parser stack frames: an array under construction (items reversed), an
object awaiting a key/comma/close, an object awaiting the value for `key`. -/
inductive Jframe where
  | farr (acc : List Jval)
  | fobjA (acc : List (List Char × Jval))
  | fobjK (acc : List (List Char × Jval)) (key : List Char)

/-- Parser modes between tokens. -/
inductive Jexpect where
  | value
  | itemOrClose
  | keyOrClose
  | key
  | colonE
  | after

/-- A completed value is attached to the innermost open container, or
becomes the root when the stack is empty and no root exists yet. -/
def attachVal (v : Jval) (stk : List Jframe) (root : Option Jval) :
    Option (List Jframe × Option Jval) :=
  match stk, root with
  | [], none => some ([], some v)
  | Jframe.farr acc :: rest, r => some (Jframe.farr (v :: acc) :: rest, r)
  | Jframe.fobjK acc k :: rest, r => some (Jframe.fobjA ((k, v) :: acc) :: rest, r)
  | _, _ => none

/-- Scalar tokens as values. -/
def scalarOfTok : Jtok → Option Jval
  | Jtok.jstr s => some (Jval.str s)
  | Jtok.jnum q => some (Jval.num q)
  | Jtok.jtrue => some (Jval.bool true)
  | Jtok.jfalse => some (Jval.bool false)
  | Jtok.jnull => some Jval.null
  | _ => none

/-- Token-driven JSON parser: one token consumed per step.  Accepts iff the
token list is exactly one JSON document (so leftover tokens are the
`Extra data` error of `json.loads`, and a premature end is its
`Expecting value` error). -/
def runJparse : List Jtok → Jexpect → List Jframe → Option Jval → Option Jval
  | [], Jexpect.after, [], some v => some v
  | [], _, _, _ => none
  | t :: ts, Jexpect.value, stk, root =>
    (match scalarOfTok t with
     | some v =>
       match attachVal v stk root with
       | some (stk2, r2) => runJparse ts Jexpect.after stk2 r2
       | none => none
     | none =>
       match t with
       | Jtok.lcurly => runJparse ts Jexpect.keyOrClose (Jframe.fobjA [] :: stk) root
       | Jtok.lsquare => runJparse ts Jexpect.itemOrClose (Jframe.farr [] :: stk) root
       | _ => none)
  | t :: ts, Jexpect.itemOrClose, stk, root =>
    (match t, stk with
     | Jtok.rsquare, Jframe.farr acc :: rest =>
       match attachVal (Jval.arr acc.reverse) rest root with
       | some (stk2, r2) => runJparse ts Jexpect.after stk2 r2
       | none => none
     | tok, _ =>
       match scalarOfTok tok with
       | some v =>
         match attachVal v stk root with
         | some (stk2, r2) => runJparse ts Jexpect.after stk2 r2
         | none => none
       | none =>
         match tok with
         | Jtok.lcurly => runJparse ts Jexpect.keyOrClose (Jframe.fobjA [] :: stk) root
         | Jtok.lsquare => runJparse ts Jexpect.itemOrClose (Jframe.farr [] :: stk) root
         | _ => none)
  | t :: ts, Jexpect.keyOrClose, stk, root =>
    (match t, stk with
     | Jtok.jstr k, Jframe.fobjA acc :: rest =>
       runJparse ts Jexpect.colonE (Jframe.fobjK acc k :: rest) root
     | Jtok.rcurly, Jframe.fobjA acc :: rest =>
       match attachVal (Jval.obj acc.reverse) rest root with
       | some (stk2, r2) => runJparse ts Jexpect.after stk2 r2
       | none => none
     | _, _ => none)
  | t :: ts, Jexpect.key, stk, root =>
    (match t, stk with
     | Jtok.jstr k, Jframe.fobjA acc :: rest =>
       runJparse ts Jexpect.colonE (Jframe.fobjK acc k :: rest) root
     | _, _ => none)
  | t :: ts, Jexpect.colonE, stk, root =>
    (match t with
     | Jtok.colon => runJparse ts Jexpect.value stk root
     | _ => none)
  | t :: ts, Jexpect.after, stk, root =>
    (match t, stk with
     | Jtok.comma, Jframe.farr acc :: rest =>
       runJparse ts Jexpect.value (Jframe.farr acc :: rest) root
     | Jtok.comma, Jframe.fobjA acc :: rest =>
       runJparse ts Jexpect.key (Jframe.fobjA acc :: rest) root
     | Jtok.rsquare, Jframe.farr acc :: rest =>
       match attachVal (Jval.arr acc.reverse) rest root with
       | some (stk2, r2) => runJparse ts Jexpect.after stk2 r2
       | none => none
     | Jtok.rcurly, Jframe.fobjA acc :: rest =>
       match attachVal (Jval.obj acc.reverse) rest root with
       | some (stk2, r2) => runJparse ts Jexpect.after stk2 r2
       | none => none
     | _, _ => none)

/-- Model of `json.loads`: `none` models `json.JSONDecodeError`. -/
def json_loads (s : List Char) : Option Jval :=
  match lexJson s.length s with
  | none => none
  | some toks => runJparse toks Jexpect.value [] none

/-- Python `dict.get(k)` on a parsed object: last occurrence of a duplicated key
wins, as in `dict` construction. -/
def jGet : List (List Char × Jval) → List Char → Option Jval
  | [], _ => none
  | (k2, v) :: rest, k =>
    match jGet rest k with
    | some v2 => some v2
    | none => if k2 = k then some v else none

/-- Python truthiness of a parsed JSON value (used by
`if extracted_data.get("liability_cap")`). -/
def jTruthy : Jval → Bool
  | Jval.null => false
  | Jval.bool b => b
  | Jval.num q => decide (q ≠ 0)
  | Jval.str s => !s.isEmpty
  | Jval.arr xs => !xs.isEmpty
  | Jval.obj kvs => !kvs.isEmpty

/-- Python `for x in v` duck-typing on a parsed JSON value, as exercised by
the list comprehensions of `extraction_service.py` and the findings loop of
`audit_service.py`: lists iterate their elements; empty dicts and empty
strings iterate zero items, so the loop body never runs; non-empty dicts
and strings iterate keys/characters, on which the loop bodies of this code
base always raise (`.get` or `**` on a non-dict), folded here into the
error at the iteration site; other values raise `TypeError`.  Error
payloads stand in for Python exception text. -/
def iterElems : Jval → Except (List Char) (List Jval)
  | Jval.arr xs => Except.ok xs
  | Jval.obj [] => Except.ok []
  | Jval.str [] => Except.ok []
  | Jval.obj (_ :: _) => Except.error ("dict keys are not mappings".toList)
  | Jval.str (_ :: _) => Except.error ("str characters are not mappings".toList)
  | _ => Except.error ("TypeError: not iterable".toList)

/-- Provider-reply post-processing shared verbatim by
`ExtractionService.extract_fields` and `AuditService.audit_document`: the
reply is `.strip()`-ed on receipt; if it then starts with a fenced code
block, all occurrences of the fence markers are removed with
`str.replace(_, "")` and the result is stripped again. -/
def cleanReply (raw : List Char) : List Char :=
  let t := pyStrip raw
  if ("```json".toList).isPrefixOf t then
    pyStrip (removeAll ("```".toList) (removeAll ("```json".toList) t))
  else if ("```".toList).isPrefixOf t then
    pyStrip (removeAll ("```".toList) t)
  else t

/-! ## MD5 (`hashlib.md5(...).hexdigest()` in `PDFService.generate_document_id`) -/

/-- Arithmetic on 32-bit words is done on `Nat` with explicit `% 2^32`. -/
def w32 : Nat := 4294967296

/-- Bitwise complement on 32 bits of `x < 2^32`. -/
def not32 (x : Nat) : Nat := 4294967295 - x

/-- Left rotation of a 32-bit word. -/
def rotl32 (x n : Nat) : Nat := ((x <<< n) ||| (x >>> (32 - n))) % w32

/-- The 64 MD5 sine-derived constants (RFC 1321). -/
def md5K : List Nat :=
  [0xd76aa478, 0xe8c7b756, 0x242070db, 0xc1bdceee,
   0xf57c0faf, 0x4787c62a, 0xa8304613, 0xfd469501,
   0x698098d8, 0x8b44f7af, 0xffff5bb1, 0x895cd7be,
   0x6b901122, 0xfd987193, 0xa679438e, 0x49b40821,
   0xf61e2562, 0xc040b340, 0x265e5a51, 0xe9b6c7aa,
   0xd62f105d, 0x02441453, 0xd8a1e681, 0xe7d3fbc8,
   0x21e1cde6, 0xc33707d6, 0xf4d50d87, 0x455a14ed,
   0xa9e3e905, 0xfcefa3f8, 0x676f02d9, 0x8d2a4c8a,
   0xfffa3942, 0x8771f681, 0x6d9d6122, 0xfde5380c,
   0xa4beea44, 0x4bdecfa9, 0xf6bb4b60, 0xbebfbc70,
   0x289b7ec6, 0xeaa127fa, 0xd4ef3085, 0x04881d05,
   0xd9d4d039, 0xe6db99e5, 0x1fa27cf8, 0xc4ac5665,
   0xf4292244, 0x432aff97, 0xab9423a7, 0xfc93a039,
   0x655b59c3, 0x8f0ccc92, 0xffeff47d, 0x85845dd1,
   0x6fa87e4f, 0xfe2ce6e0, 0xa3014314, 0x4e0811a1,
   0xf7537e82, 0xbd3af235, 0x2ad7d2bb, 0xeb86d391]

/-- The 64 MD5 per-round left-rotation amounts. -/
def md5S : List Nat :=
  [7, 12, 17, 22, 7, 12, 17, 22, 7, 12, 17, 22, 7, 12, 17, 22,
   5, 9, 14, 20, 5, 9, 14, 20, 5, 9, 14, 20, 5, 9, 14, 20,
   4, 11, 16, 23, 4, 11, 16, 23, 4, 11, 16, 23, 4, 11, 16, 23,
   6, 10, 15, 21, 6, 10, 15, 21, 6, 10, 15, 21, 6, 10, 15, 21]

/-- The MD5 round function for step `i`. -/
def md5F (i b c d : Nat) : Nat :=
  if i < 16 then (b &&& c) ||| (not32 b &&& d)
  else if i < 32 then (d &&& b) ||| (not32 d &&& c)
  else if i < 48 then b ^^^ c ^^^ d
  else c ^^^ (b ||| not32 d)

/-- The MD5 message-word index for step `i`. -/
def md5G (i : Nat) : Nat :=
  if i < 16 then i
  else if i < 32 then (5 * i + 1) % 16
  else if i < 48 then (3 * i + 5) % 16
  else (7 * i) % 16

/-- The 64 MD5 steps over one 16-word chunk, counting down the remaining
steps; current step index is `64 - remaining`. -/
def md5Steps (M : List Nat) : Nat → Nat × Nat × Nat × Nat → Nat × Nat × Nat × Nat
  | 0, s => s
  | n + 1, (a, b, c, d) =>
    let i := 64 - (n + 1)
    let f := (md5F i b c d + a + md5K.getD i 0 + M.getD (md5G i) 0) % w32
    let b2 := (b + rotl32 f (md5S.getD i 0)) % w32
    md5Steps M n (d, b2, b, c)

/-- Process one 64-byte chunk (given as 16 little-endian words). -/
def md5Chunk (h : Nat × Nat × Nat × Nat) (M : List Nat) : Nat × Nat × Nat × Nat :=
  let s := md5Steps M 64 h
  ((h.1 + s.1) % w32, (h.2.1 + s.2.1) % w32, (h.2.2.1 + s.2.2.1) % w32, (h.2.2.2 + s.2.2.2) % w32)

/-- The number `n` as `k` little-endian bytes. -/
def leBytes : Nat → Nat → List Nat
  | 0, _ => []
  | k + 1, n => n % 256 :: leBytes k (n / 256)

/-- MD5 padding: `0x80`, zeros to 56 mod 64, then the 8-byte little-endian
bit length. -/
def md5Pad (msg : List Nat) : List Nat :=
  let padLen := (119 - (msg.length % 64)) % 64
  msg ++ 0x80 :: List.replicate padLen 0 ++ leBytes 8 (msg.length * 8)

/-- Split a byte list into 64-byte chunks (fuel-based). -/
def md5ChunksAux : Nat → List Nat → List (List Nat)
  | 0, _ => []
  | _ + 1, [] => []
  | fuel + 1, l => l.take 64 :: md5ChunksAux fuel (l.drop 64)

/-- Group a 64-byte chunk into 16 little-endian 32-bit words. -/
def chunkWords : List Nat → List Nat
  | b0 :: b1 :: b2 :: b3 :: rest => (b0 + 256 * (b1 + 256 * (b2 + 256 * b3))) :: chunkWords rest
  | _ => []

/-- Fold the chunks through the compression function. -/
def md5Fold : List (List Nat) → Nat × Nat × Nat × Nat → Nat × Nat × Nat × Nat
  | [], h => h
  | ch :: rest, h => md5Fold rest (md5Chunk h (chunkWords ch))

/-- Lowercase hex digit. -/
def hexDigit (n : Nat) : Char :=
  if n < 10 then Char.ofNat (48 + n) else Char.ofNat (87 + n)

/-- A byte as two lowercase hex characters. -/
def byteHex (b : Nat) : List Char := [hexDigit (b / 16), hexDigit (b % 16)]

/-- Model of `hashlib.md5(bytes).hexdigest()`: the 16 digest bytes (four state words,
little-endian each) in lowercase hex. -/
def md5hex (msg : List Nat) : List Char :=
  let p := md5Pad msg
  let h := md5Fold (md5ChunksAux p.length p) (0x67452301, 0xefcdab89, 0x98badcfe, 0x10325476)
  ((leBytes 4 h.1 ++ leBytes 4 h.2.1 ++ leBytes 4 h.2.2.1 ++ leBytes 4 h.2.2.2).map byteHex).flatten

/-- UTF-8 encoding of one code point (Python `str.encode()`). -/
def utf8EncodeChar (c : Char) : List Nat :=
  let n := c.toNat
  if n < 128 then [n]
  else if n < 2048 then [192 + n / 64, 128 + n % 64]
  else if n < 65536 then [224 + n / 4096, 128 + n / 64 % 64, 128 + n % 64]
  else [240 + n / 262144, 128 + n / 4096 % 64, 128 + n / 64 % 64, 128 + n % 64]

/-- Python `s.encode()` (UTF-8). -/
def utf8Bytes (s : List Char) : List Nat := (s.map utf8EncodeChar).flatten

/-- Model of `PDFService.generate_document_id`: the MD5 hex digest of
`f"{filename}_{content[:1000]}"` encoded as UTF-8. -/
def generate_document_id (filename content : List Char) : List Char :=
  md5hex (utf8Bytes (filename ++ '_' :: content.take 1000))

/-! ## Document store (`app/utils/db.py`)

The store is the dict `self.documents` modelled as a list of documents in
insertion order with unique ids (dict semantics; uniqueness is a
hypothesis where a theorem needs it).  The `uploaded_at` timestamp
(`datetime.now()`), the `metadata` mapping, and the metrics counters are
omitted: no claim touches them. -/

/-- One stored document. -/
structure Doc where
  id : List Char
  filename : List Char
  text : List Char
  page_count : Nat
  deriving DecidableEq

/-- Model of `DocumentStore.get_document`: `self.documents.get(doc_id)`. -/
def get_document (st : List Doc) (i : List Char) : Option Doc :=
  st.find? (fun d => d.id == i)

/-- Model of `DocumentStore.document_exists`: `doc_id in self.documents`. -/
def document_exists (st : List Doc) (i : List Char) : Bool :=
  (get_document st i).isSome

/-- Model of `DocumentStore.store_document`: dict insert — overwrite in place when
the id already exists, else append. -/
def store_document (st : List Doc) (d : Doc) : List Doc :=
  match st with
  | [] => [d]
  | x :: xs => if x.id = d.id then d :: xs else x :: store_document xs d

/-- Model of `DocumentStore.get_all_documents`: `list(self.documents.values())`. -/
def get_all_documents (st : List Doc) : List Doc := st

/-! ## PDF extraction (`app/services/pdf_service.py`)

`PyPDF2` is external: the input is the list of per-page texts it would
extract, in page order. -/

/-- The marker line `[PAGE <n>]` (with its terminating newline) that
`extract_text_from_pdf` writes before page `n`'s text. -/
def pageMarkerLine (n : Nat) : List Char :=
  '[' :: 'P' :: 'A' :: 'G' :: 'E' :: ' ' :: (natDigits n ++ [']', '\n'])

/-- The accumulated string of the page loop in
`PDFService.extract_text_from_pdf`: per page (1-based `n`),
`f"\n[PAGE {n}]\n{page_text}\n"`. -/
def rawTextFrom (n : Nat) : List (List Char) → List Char
  | [] => []
  | p :: ps => '\n' :: (pageMarkerLine n ++ p ++ '\n' :: rawTextFrom (n + 1) ps)

/-- Model of `PDFService.extract_text_from_pdf`: the page-marker-annotated
concatenation, `.strip()`-ed, together with the page count. -/
def extract_text_from_pdf (pages : List (List Char)) : List Char × Nat :=
  (pyStrip (rawTextFrom 1 pages), pages.length)

/-- The spec-side rendering of the extracted text for claim C5, built from
the spec's words: the concatenation, in page order starting at `n`, of
each page's text with that page's content preceded by the line reading
`[PAGE <n>]`; consecutive page blocks are separated by the blank line the
per-page newlines produce.  Compare `extract_text_from_pdf`. -/
def specPageConcat (n : Nat) : List (List Char) → List Char
  | [] => []
  | [p] => pageMarkerLine n ++ p ++ ['\n']
  | p :: ps => pageMarkerLine n ++ p ++ '\n' :: '\n' :: specPageConcat (n + 1) ps

/-! ## Response models (`app/models.py`) -/

/-- Model of `models.Citation`.  The character-offset fields exist in the schema and
are never populated by the heuristic. -/
structure Citation where
  document_id : List Char
  page : Option Nat
  char_start : Option Nat
  char_end : Option Nat
  text_snippet : List Char
  deriving DecidableEq

/-- Model of `models.AskResponse`.  The confidence is an exact rational standing in
for the Python float (only `none` vs `some 0.85` is ever observed). -/
structure AskResponse where
  answer : List Char
  citations : List Citation
  confidence : Option ℚ
  deriving DecidableEq

/-- Model of `models.Party`. -/
structure Party where
  name : List Char
  role : Option (List Char)
  deriving DecidableEq

/-- Model of `models.Signatory`. -/
structure Signatory where
  name : List Char
  title : Option (List Char)
  deriving DecidableEq

/-- Model of `models.LiabilityCap`. -/
structure LiabilityCap where
  amount : Option ℚ
  currency : Option (List Char)
  deriving DecidableEq

/-- Model of `models.ExtractedFields`. -/
structure ExtractedFields where
  parties : List Party
  effective_date : Option (List Char)
  term : Option (List Char)
  governing_law : Option (List Char)
  payment_terms : Option (List Char)
  termination : Option (List Char)
  auto_renewal : Option (List Char)
  confidentiality : Option (List Char)
  indemnity : Option (List Char)
  liability_cap : Option LiabilityCap
  signatories : List Signatory
  deriving DecidableEq

/-- Model of `models.AuditFinding`. -/
structure AuditFinding where
  severity : List Char
  clause_type : List Char
  description : List Char
  evidence : List Char
  document_id : List Char
  page : Option Nat
  recommendation : Option (List Char)
  deriving DecidableEq

/-- Model of `models.IngestResponse` — exactly three fields; there is no field for
per-file warnings. -/
structure IngestResponse where
  document_ids : List (List Char)
  message : List Char
  processed_count : Nat
  deriving DecidableEq

/-! ## Field extraction (`app/services/extraction_service.py`)

The provider exchange is abstracted: `provider` is the outcome of the
completion call (`.error` models an exception raised during the call; its
payload stands in for `str(e)`).  Everything after the call is embedded. -/

/-- An optional-string pydantic field fed from `extracted_data.get(k)`:
absent or `null` is `none`, a JSON string is `some`; any other value is
modelled as a validation failure (caught by the outer `except Exception`). -/
def optStrField (kvs : List (List Char × Jval)) (k : List Char) :
    Except (List Char) (Option (List Char)) :=
  match jGet kvs k with
  | none => Except.ok none
  | some Jval.null => Except.ok none
  | some (Jval.str s) => Except.ok (some s)
  | some _ => Except.error ("ValidationError".toList)

/-- A required string pydantic field (e.g. `Party.name`): missing or
non-string raises. -/
def reqStrField (kvs : List (List Char × Jval)) (k : List Char) :
    Except (List Char) (List Char) :=
  match jGet kvs k with
  | some (Jval.str s) => Except.ok s
  | some _ => Except.error ("ValidationError".toList)
  | none => Except.error ("ValidationError: field required".toList)

/-- A string field with a `.get(k, default)` default (audit findings):
missing key gives the default; `null` or a non-string raises. -/
def strFieldD (kvs : List (List Char × Jval)) (k dflt : List Char) :
    Except (List Char) (List Char) :=
  match jGet kvs k with
  | none => Except.ok dflt
  | some (Jval.str s) => Except.ok s
  | some _ => Except.error ("ValidationError".toList)

/-- An optional numeric pydantic field (`LiabilityCap.amount`). -/
def optNumField (kvs : List (List Char × Jval)) (k : List Char) :
    Except (List Char) (Option ℚ) :=
  match jGet kvs k with
  | none => Except.ok none
  | some Jval.null => Except.ok none
  | some (Jval.num q) => Except.ok (some q)
  | some _ => Except.error ("ValidationError".toList)

/-- Error-propagating map over a list (the Python list comprehension:
the first raising element aborts the whole comprehension). -/
def mapExcept {α β : Type} (f : α → Except (List Char) β) :
    List α → Except (List Char) (List β)
  | [] => Except.ok []
  | x :: xs => do
    let y ← f x
    let ys ← mapExcept f xs
    Except.ok (y :: ys)

/-- Model of `Party(**p)`: `p` must be a mapping with a string `name` and optional
`role` (extra keys are ignored by the pydantic model). -/
def partyOfJson : Jval → Except (List Char) Party
  | Jval.obj kvs => do
    let n ← reqStrField kvs ("name".toList)
    let r ← optStrField kvs ("role".toList)
    Except.ok ⟨n, r⟩
  | _ => Except.error ("TypeError: not a mapping".toList)

/-- Model of `Signatory(**s)`. -/
def signatoryOfJson : Jval → Except (List Char) Signatory
  | Jval.obj kvs => do
    let n ← reqStrField kvs ("name".toList)
    let t ← optStrField kvs ("title".toList)
    Except.ok ⟨n, t⟩
  | _ => Except.error ("TypeError: not a mapping".toList)

/-- Model of `LiabilityCap(**extracted_data["liability_cap"]) if
extracted_data.get("liability_cap") else None`: a falsy value (absent,
`null`, `0`, `""`, `[]`, `{}`, `false`) gives `None`; a truthy non-mapping
raises. -/
def liabilityCapOfJson (kvs : List (List Char × Jval)) :
    Except (List Char) (Option LiabilityCap) :=
  match jGet kvs ("liability_cap".toList) with
  | none => Except.ok none
  | some v =>
    if jTruthy v then
      match v with
      | Jval.obj fs => do
        let a ← optNumField fs ("amount".toList)
        let c ← optStrField fs ("currency".toList)
        Except.ok (some ⟨a, c⟩)
      | _ => Except.error ("TypeError: not a mapping".toList)
    else Except.ok none

/-- Model of `ExtractedFields()` — pydantic defaults: every field empty or absent. -/
def emptyExtractedFields : ExtractedFields :=
  ⟨[], none, none, none, none, none, none, none, none, none, []⟩

/-- The `ExtractedFields(...)` construction from the parsed provider JSON
(`extraction_service.py` lines 82-94).  A non-dict top level raises at the
first `.get`; every raising shape is an `.error`, caught by the outer
`except Exception` and re-raised as an extraction failure. -/
def extractedOfJson : Jval → Except (List Char) ExtractedFields
  | Jval.obj kvs => do
    let pjs ← iterElems ((jGet kvs ("parties".toList)).getD (Jval.arr []))
    let ps ← mapExcept partyOfJson pjs
    let ed ← optStrField kvs ("effective_date".toList)
    let tm ← optStrField kvs ("term".toList)
    let gl ← optStrField kvs ("governing_law".toList)
    let pt ← optStrField kvs ("payment_terms".toList)
    let tn ← optStrField kvs ("termination".toList)
    let ar ← optStrField kvs ("auto_renewal".toList)
    let cf ← optStrField kvs ("confidentiality".toList)
    let ind ← optStrField kvs ("indemnity".toList)
    let lc ← liabilityCapOfJson kvs
    let sjs ← iterElems ((jGet kvs ("signatories".toList)).getD (Jval.arr []))
    let ss ← mapExcept signatoryOfJson sjs
    Except.ok ⟨ps, ed, tm, gl, pt, tn, ar, cf, ind, lc, ss⟩
  | _ => Except.error ("AttributeError: no attribute get".toList)

/-- Model of `ExtractionService.extract_fields` after the prompt is sent:
a provider-call failure is re-raised as `Exception(f"Extraction error:
{e}")`; a `json.JSONDecodeError` returns `ExtractedFields()`; any other
failure while reshaping is likewise re-raised.  `Except.error` models the
exception reaching the caller. -/
def extract_fields (provider : Except (List Char) (List Char)) :
    Except (List Char) ExtractedFields :=
  match provider with
  | Except.error e => Except.error ("Extraction error: ".toList ++ e)
  | Except.ok raw =>
    match json_loads (cleanReply raw) with
    | none => Except.ok emptyExtractedFields
    | some j =>
      match extractedOfJson j with
      | Except.ok ef => Except.ok ef
      | Except.error e => Except.error ("Extraction error: ".toList ++ e)

/-! ## Audit (`app/services/audit_service.py`) -/

/-- One finding built from a parsed array element
(`audit_service.py` lines 89-97): `.get` with defaults for the string
fields, optional recommendation, the audited document's id, no page. -/
def findingOfJson (docId : List Char) : Jval → Except (List Char) AuditFinding
  | Jval.obj kvs => do
    let sev ← strFieldD kvs ("severity".toList) ("low".toList)
    let ct ← strFieldD kvs ("clause_type".toList) ("other".toList)
    let ds ← strFieldD kvs ("description".toList) []
    let ev ← strFieldD kvs ("evidence".toList) []
    let rc ← optStrField kvs ("recommendation".toList)
    Except.ok ⟨sev, ct, ds, ev, docId, none, rc⟩
  | _ => Except.error ("AttributeError: no attribute get".toList)

/-- The findings loop over the parsed provider JSON. -/
def findingsOfJson (docId : List Char) (j : Jval) :
    Except (List Char) (List AuditFinding) :=
  match iterElems j with
  | Except.error e => Except.error e
  | Except.ok js => mapExcept (findingOfJson docId) js

/-- The synthetic placeholder finding returned on `json.JSONDecodeError`
(`audit_service.py` lines 101-110). -/
def incompleteAuditFinding (docId : List Char) : AuditFinding :=
  ⟨"low".toList, "other".toList,
   "Unable to complete full audit analysis".toList,
   "Analysis incomplete".toList, docId, none,
   some ("Manual review recommended".toList)⟩

/-- The finding returned on any other exception
(`audit_service.py` lines 111-118). -/
def auditErrorFinding (docId e : List Char) : AuditFinding :=
  ⟨"low".toList, "other".toList, "Audit error: ".toList ++ e, [], docId,
   none, none⟩

/-- Model of `AuditService.audit_document` with the provider exchange abstracted:
absent document gives `[]`; a provider-call failure or a reshaping failure
gives the single error finding; a `json.JSONDecodeError` gives the single
placeholder finding. -/
def audit_document (st : List Doc) (docId : List Char)
    (provider : Except (List Char) (List Char)) : List AuditFinding :=
  match get_document st docId with
  | none => []
  | some _ =>
    match provider with
    | Except.error e => [auditErrorFinding docId e]
    | Except.ok raw =>
      match json_loads (cleanReply raw) with
      | none => [incompleteAuditFinding docId]
      | some j =>
        match findingsOfJson docId j with
        | Except.ok fs => fs
        | Except.error e => [auditErrorFinding docId e]

/-- Model of `POST /audit` (`app/main.py` lines 186-200): 404 when
`document_exists` is false, otherwise the service findings. -/
def audit_endpoint (st : List Doc) (docId : List Char)
    (provider : Except (List Char) (List Char)) :
    Except (List Char) (List AuditFinding) :=
  if document_exists st docId then Except.ok (audit_document st docId provider)
  else Except.error ("Document not found".toList)

/-! ## Question answering (`app/services/rag_service.py`) -/

/-- The fixed no-documents answer. -/
def noDocsMsg : List Char := "No documents found. Please upload documents first.".toList

/-- Document selection shared by `answer_question` and
`answer_question_stream` (`rag_service.py` lines 31-34 and 93-96):
Python's `if document_ids:` is falsy for both `None` and `[]`, in which
case every stored document is used; otherwise each listed id is resolved
through the store and unknown ids are silently dropped. -/
def resolveDocs (st : List Doc) (ids? : Option (List (List Char))) : List Doc :=
  match ids? with
  | none => get_all_documents st
  | some ids =>
    if ids.isEmpty then get_all_documents st
    else ids.filterMap (fun i => get_document st i)

/-- The context window assembled per selected document
(`rag_service.py` lines 43-45): a document-boundary marker carrying the id,
then the first 5000 characters of the text.  It feeds the provider prompt
only, so no theorem depends on it. -/
def buildContext (docs : List Doc) : List Char :=
  docs.foldl
    (fun acc d =>
      acc ++ '\n' :: '\n' ::
        ("[DOCUMENT: ".toList ++ d.id ++ ']' :: '\n' :: (d.text.take 5000 ++ ['\n'])))
    []

/-- Python `pat in s` substring containment on code-point lists. -/
def substringOf (pat : List Char) : List Char → Bool
  | [] => pat.isEmpty
  | c :: rest => pat.isPrefixOf (c :: rest) || substringOf pat rest

/-- Model of `RAGService._extract_citations`: per candidate document, collect all
`[PAGE <n>]` markers of its text; if the document's id or filename occurs
in the answer, emit one citation with the first page number found (if
any) and the first 200 characters of the text as snippet. -/
def extract_citations (answer : List Char) (docs : List Doc) : List Citation :=
  docs.filterMap (fun doc =>
    if substringOf doc.id answer || substringOf doc.filename answer then
      some ⟨doc.id, (findPageMarkers doc.text).head?, none, none, doc.text.take 200⟩
    else none)

/-- Model of `RAGService.answer_question` with the provider exchange abstracted:
no resolved documents gives the fixed answer; a successful reply is
stripped, cited and returned with confidence 0.85; a provider failure is
embedded in the answer text (never an exception to the caller). -/
def answer_question (st : List Doc) (_question : List Char)
    (ids? : Option (List (List Char))) (provider : Except (List Char) (List Char)) :
    AskResponse :=
  let docs := resolveDocs st ids?
  if docs.isEmpty then ⟨noDocsMsg, [], none⟩
  else
    match provider with
    | Except.ok reply =>
      let answerText := pyStrip reply
      ⟨answerText, extract_citations answerText docs, some (85 / 100 : ℚ)⟩
    | Except.error e => ⟨"Error processing question: ".toList ++ e, [], none⟩

/-- Model of `RAGService.answer_question_stream` with the provider exchange
abstracted to the list of delivered fragments: no resolved documents
yields exactly the fixed message; otherwise the provider fragments are
yielded, skipping falsy (empty) chunks (`if chunk.text:`); a provider
failure yields exactly one `Error: ...` fragment. -/
def answer_question_stream (st : List Doc) (_question : List Char)
    (ids? : Option (List (List Char)))
    (provider : Except (List Char) (List (List Char))) : List (List Char) :=
  let docs := resolveDocs st ids?
  if docs.isEmpty then [noDocsMsg]
  else
    match provider with
    | Except.ok chunks => chunks.filter (fun c => !c.isEmpty)
    | Except.error e => ["Error: ".toList ++ e]

/-- The SSE framing of `GET /ask/stream` (`app/main.py` lines 174-178):
each fragment becomes one `data:` event, then the single terminal
`data: [DONE]` sentinel is appended. -/
def sse_events (frags : List (List Char)) : List (List Char) :=
  frags.map (fun c => "data: ".toList ++ c ++ "\n\n".toList) ++
    ["data: [DONE]\n\n".toList]

/-! ## Ingestion (`app/main.py` lines 50-125) -/

/-- One uploaded file: its name and the outcome of the
read + save + extract pipeline (everything inside the per-file `try`).
`.ok` carries the page texts the external PDF library would extract;
`.error` stands for the text of the raised exception. -/
structure IngestFile where
  filename : List Char
  readResult : Except (List Char) (List (List Char))

/-- The warning collected for a non-`.pdf` filename. -/
def skipMsg (f : List Char) : List Char :=
  "Skipped ".toList ++ f ++ " - not a PDF".toList

/-- The warning collected when a file's processing raises. -/
def procErrMsg (f e : List Char) : List Char :=
  "Error processing ".toList ++ f ++ ": ".toList ++ e

/-- State accumulated by the ingestion loop. -/
structure IngestAcc where
  document_ids : List (List Char)
  processed_count : Nat
  errors : List (List Char)
  store : List Doc
  deriving DecidableEq

/-- The `/ingest` per-file loop: a non-`.pdf` name collects a skip
warning; a processing failure collects an error warning; a success
extracts, derives the id, stores the document and counts it. -/
def ingestLoop (st : List Doc) : List IngestFile → IngestAcc
  | [] => ⟨[], 0, [], st⟩
  | f :: fs =>
    if (".pdf".toList).isSuffixOf f.filename then
      match f.readResult with
      | Except.ok pages =>
        let tp := extract_text_from_pdf pages
        let did := generate_document_id f.filename tp.1
        let acc := ingestLoop (store_document st ⟨did, f.filename, tp.1, tp.2⟩) fs
        ⟨did :: acc.document_ids, acc.processed_count + 1, acc.errors, acc.store⟩
      | Except.error e =>
        let acc := ingestLoop st fs
        ⟨acc.document_ids, acc.processed_count, procErrMsg f.filename e :: acc.errors, acc.store⟩
    else
      let acc := ingestLoop st fs
      ⟨acc.document_ids, acc.processed_count, skipMsg f.filename :: acc.errors, acc.store⟩

/-- The message `f"Successfully ingested {n} document(s)"`. -/
def successMsg (n : Nat) : List Char :=
  "Successfully ingested ".toList ++ natDigits n ++ " document(s)".toList

/-- The HTTP 400 detail when no file was processed. -/
def noValidDetail (errs : List (List Char)) : List Char :=
  "No valid PDF files processed".toList ++
    (if errs.isEmpty then [] else ". Errors: ".toList ++ joinSep ("; ".toList) errs)

/-- Model of `POST /ingest`: 400 when the file list is empty or every file failed;
otherwise the `IngestResponse`, paired with the collected per-file
warnings — which the code only prints (they are not a field of the
response model) — and the updated store. -/
def ingest_documents (st : List Doc) (files : List IngestFile) :
    Except (List Char) (IngestResponse × List (List Char) × List Doc) :=
  if files.isEmpty then Except.error ("No files provided".toList)
  else
    let acc := ingestLoop st files
    if acc.processed_count = 0 then Except.error (noValidDetail acc.errors)
    else
      Except.ok
        (⟨acc.document_ids, successMsg acc.processed_count, acc.processed_count⟩,
         acc.errors, acc.store)

/-- The response component of an ingestion result. -/
def ingestRespOf (r : Except (List Char) (IngestResponse × List (List Char) × List Doc)) :
    Option IngestResponse :=
  match r with
  | Except.ok p => some p.1
  | Except.error _ => none

/-- The collected-warnings component of an ingestion result. -/
def ingestLogOf (r : Except (List Char) (IngestResponse × List (List Char) × List Doc)) :
    Option (List (List Char)) :=
  match r with
  | Except.ok p => some p.2.1
  | Except.error _ => none

/-- A file the ingestion loop counts as processed: a `.pdf` name and a
successful read + extract. -/
def isSuccessFile (f : IngestFile) : Bool :=
  (".pdf".toList).isSuffixOf f.filename &&
    (match f.readResult with
     | Except.ok _ => true
     | Except.error _ => false)

/-- The warning the loop collects for a failed file. -/
def failMsgOf (f : IngestFile) : List Char :=
  if (".pdf".toList).isSuffixOf f.filename then
    match f.readResult with
    | Except.ok _ => []
    | Except.error e => procErrMsg f.filename e
  else skipMsg f.filename

/-! ## Theorems -/

/-- The page loop's raw accumulation is a newline followed by the
spec-side page-block concatenation. -/
theorem rawTextFrom_eq_cons (ps : List (List Char)) :
    ∀ (n : Nat) (p : List Char),
      rawTextFrom n (p :: ps) = '\n' :: specPageConcat n (p :: ps) := by
  induction ps with
  | nil => intro n p; rfl
  | cons q qs ih =>
    intro n p
    show '\n' :: (pageMarkerLine n ++ p ++ '\n' :: rawTextFrom (n + 1) (q :: qs)) =
      '\n' :: (pageMarkerLine n ++ p ++ '\n' :: '\n' :: specPageConcat (n + 1) (q :: qs))
    rw [ih (n + 1) q]

/-- The spec-side concatenation of a non-empty page list starts with the
opening bracket of the first marker. -/
theorem specPageConcat_cons (n : Nat) (p : List Char) (ps : List (List Char)) :
    ∃ t, specPageConcat n (p :: ps) = '[' :: t := by
  cases ps with
  | nil => exact ⟨_, rfl⟩
  | cons q qs => exact ⟨_, rfl⟩

/-- C5: the extracted PDF text is the concatenation, in page order, of the
page texts, each page's content preceded by the line `[PAGE <n>]` with its
1-based page number, and the whole result right-trimmed; the page count is
the number of pages.  (The `.strip()` in the code also trims on the left,
but the only leading whitespace is the single newline the loop itself
prepends before `[PAGE 1]`, so the marker structure is preserved and the
result is exactly the right-trimmed block concatenation.) -/
theorem c5_pdf_text_layout (pages : List (List Char)) :
    extract_text_from_pdf pages = (rightTrim (specPageConcat 1 pages), pages.length) := by
  cases pages with
  | nil => rfl
  | cons p ps =>
    obtain ⟨t, ht⟩ := specPageConcat_cons 1 p ps
    simp only [extract_text_from_pdf, pyStrip, leftTrim]
    rw [rawTextFrom_eq_cons ps 1 p, ht]
    rfl

/-- C6: the document identifier is deterministic and depends only on the
filename and the first 1000 characters of the text. -/
theorem c6_document_id_deterministic (f1 f2 t1 t2 : List Char)
    (hf : f1 = f2) (ht : t1.take 1000 = t2.take 1000) :
    generate_document_id f1 t1 = generate_document_id f2 t2 := by
  unfold generate_document_id
  rw [hf, ht]

set_option maxRecDepth 10000 in
/-- Witness for C6 at texts that agree on their first 1000 characters and
differ afterwards. -/
theorem c6_document_id_deterministic_witness :
    "contract.pdf".toList = "contract.pdf".toList ∧
    (List.replicate 1000 'a' ++ ['x']).take 1000 =
      (List.replicate 1000 'a' ++ ['y']).take 1000 ∧
    generate_document_id ("contract.pdf".toList) (List.replicate 1000 'a' ++ ['x']) =
      generate_document_id ("contract.pdf".toList) (List.replicate 1000 'a' ++ ['y']) :=
  ⟨rfl, by decide, c6_document_id_deterministic _ _ _ _ rfl (by decide)⟩

/-- C2: when the cleaned provider reply fails to parse as JSON
(`json.JSONDecodeError`), `extract_fields` returns the all-empty
`ExtractedFields` — empty parties, empty signatories, every optional field
absent — and does not raise to the caller. -/
theorem c2_extract_fields_parse_failure (raw : List Char)
    (h : json_loads (cleanReply raw) = none) :
    extract_fields (Except.ok raw) =
      Except.ok ⟨[], none, none, none, none, none, none, none, none, none, []⟩ := by
  simp only [extract_fields, h, emptyExtractedFields]

/-- Witness for C2 at a reply that is not JSON. -/
theorem c2_extract_fields_parse_failure_witness :
    json_loads (cleanReply ("I could not find the fields".toList)) = none ∧
    extract_fields (Except.ok ("I could not find the fields".toList)) =
      Except.ok ⟨[], none, none, none, none, none, none, none, none, none, []⟩ :=
  ⟨rfl, c2_extract_fields_parse_failure _ rfl⟩

/-- C3: when the document exists and the cleaned provider reply fails to
parse as JSON, `audit_document` returns exactly one finding: severity
`low`, clause type `other`, the audited document's id, the
incomplete-audit description and a manual-review recommendation. -/
theorem c3_audit_parse_failure (st : List Doc) (docId raw : List Char) (d : Doc)
    (hd : get_document st docId = some d)
    (h : json_loads (cleanReply raw) = none) :
    audit_document st docId (Except.ok raw) =
      [⟨"low".toList, "other".toList,
        "Unable to complete full audit analysis".toList,
        "Analysis incomplete".toList, docId, none,
        some ("Manual review recommended".toList)⟩] := by
  simp only [audit_document, hd, h, incompleteAuditFinding]

/-- Witness for C3 at a one-document store and a non-JSON reply. -/
theorem c3_audit_parse_failure_witness :
    get_document [⟨"docA".toList, "a.pdf".toList, "text".toList, 1⟩] ("docA".toList) =
      some ⟨"docA".toList, "a.pdf".toList, "text".toList, 1⟩ ∧
    json_loads (cleanReply ("I am not JSON".toList)) = none ∧
    audit_document [⟨"docA".toList, "a.pdf".toList, "text".toList, 1⟩] ("docA".toList)
        (Except.ok ("I am not JSON".toList)) =
      [⟨"low".toList, "other".toList,
        "Unable to complete full audit analysis".toList,
        "Analysis incomplete".toList, "docA".toList, none,
        some ("Manual review recommended".toList)⟩] :=
  ⟨rfl, rfl, c3_audit_parse_failure _ _ _ _ rfl rfl⟩

/-- C7: `answer_question` with a non-empty id list none of whose ids is
stored returns the fixed no-documents answer — empty citations, no
confidence — and is identical to the same call on an empty store. -/
theorem c7_unknown_ids_like_empty_store (st : List Doc) (q : List Char)
    (ids : List (List Char)) (provider : Except (List Char) (List Char))
    (hne : ids ≠ [])
    (hmiss : ∀ i ∈ ids, get_document st i = none) :
    answer_question st q (some ids) provider = ⟨noDocsMsg, [], none⟩ ∧
    answer_question st q (some ids) provider = answer_question [] q (some ids) provider := by
  have hne' : ids.isEmpty = false := by
    cases ids with
    | nil => exact absurd rfl hne
    | cons a l => rfl
  have hres : resolveDocs st (some ids) = [] := by
    simp only [resolveDocs, hne', Bool.false_eq_true, if_false]
    exact List.filterMap_eq_nil_iff.mpr hmiss
  have hres2 : resolveDocs [] (some ids) = [] := by
    simp only [resolveDocs, hne', Bool.false_eq_true, if_false]
    exact List.filterMap_eq_nil_iff.mpr (fun i _ => rfl)
  have h1 : answer_question st q (some ids) provider = ⟨noDocsMsg, [], none⟩ := by
    simp [answer_question, hres]
  have h2 : answer_question [] q (some ids) provider = ⟨noDocsMsg, [], none⟩ := by
    simp [answer_question, hres2]
  exact ⟨h1, h1.trans h2.symm⟩

/-- Witness for C7 at a one-document store and one unknown id. -/
theorem c7_unknown_ids_like_empty_store_witness :
    (["nope".toList] : List (List Char)) ≠ [] ∧
    (∀ i ∈ (["nope".toList] : List (List Char)),
      get_document [⟨"docA".toList, "a.pdf".toList, "text".toList, 1⟩] i = none) ∧
    answer_question [⟨"docA".toList, "a.pdf".toList, "text".toList, 1⟩] ("q".toList)
        (some ["nope".toList]) (Except.ok ("hi".toList)) = ⟨noDocsMsg, [], none⟩ ∧
    answer_question [⟨"docA".toList, "a.pdf".toList, "text".toList, 1⟩] ("q".toList)
        (some ["nope".toList]) (Except.ok ("hi".toList)) =
      answer_question [] ("q".toList) (some ["nope".toList]) (Except.ok ("hi".toList)) :=
  ⟨by decide, by decide,
   c7_unknown_ids_like_empty_store _ _ _ _ (by decide) (by decide)⟩

/-- C9: when no documents resolve, the streamed fragment sequence is
exactly the fixed no-documents message, and the SSE transport emits
exactly one `data:` event for it followed by the single terminal
`data: [DONE]` sentinel. -/
theorem c9_stream_no_docs (st : List Doc) (q : List Char)
    (ids? : Option (List (List Char)))
    (provider : Except (List Char) (List (List Char)))
    (h : resolveDocs st ids? = []) :
    answer_question_stream st q ids? provider = [noDocsMsg] ∧
    sse_events (answer_question_stream st q ids? provider) =
      ["data: ".toList ++ noDocsMsg ++ "\n\n".toList, "data: [DONE]\n\n".toList] := by
  have h1 : answer_question_stream st q ids? provider = [noDocsMsg] := by
    simp [answer_question_stream, h]
  refine ⟨h1, ?_⟩
  rw [h1]
  rfl

/-- Witness for C9 at an empty store. -/
theorem c9_stream_no_docs_witness :
    resolveDocs [] none = [] ∧
    answer_question_stream [] ("q".toList) none (Except.ok []) = [noDocsMsg] ∧
    sse_events (answer_question_stream [] ("q".toList) none (Except.ok [])) =
      ["data: ".toList ++ noDocsMsg ++ "\n\n".toList, "data: [DONE]\n\n".toList] :=
  ⟨rfl, c9_stream_no_docs _ _ _ _ rfl⟩

/-- C10: an explicitly empty `document_ids` list is falsy in Python, so
both the batch and the streaming paths treat it exactly like omitting the
parameter (all stored documents are used), and the batch path returns the
fixed no-documents answer exactly when the store itself is empty. -/
theorem c10_empty_selection_means_all_documents (st : List Doc) (q : List Char)
    (provider : Except (List Char) (List Char))
    (chunks : Except (List Char) (List (List Char))) :
    answer_question st q (some []) provider = answer_question st q none provider ∧
    answer_question_stream st q (some []) chunks = answer_question_stream st q none chunks ∧
    (answer_question st q (some []) provider = ⟨noDocsMsg, [], none⟩ ↔ st = []) := by
  refine ⟨rfl, rfl, ?_, ?_⟩
  · intro h
    cases st with
    | nil => rfl
    | cons d tl =>
      exfalso
      cases provider with
      | ok reply =>
        have hc := congrArg AskResponse.confidence h
        rw [show (answer_question (d :: tl) q (some []) (Except.ok reply)).confidence =
              some (85 / 100 : ℚ) from rfl] at hc
        exact Option.noConfusion hc
      | error e =>
        have ha := congrArg AskResponse.answer h
        rw [show (answer_question (d :: tl) q (some []) (Except.error e)).answer =
              "Error processing question: ".toList ++ e from rfl] at ha
        have h2 := congrArg List.head? ha
        rw [show ("Error processing question: ".toList ++ e).head? = some 'E' from rfl] at h2
        rw [show noDocsMsg.head? = some 'N' from rfl] at h2
        exact absurd h2 (by decide)
  · intro h
    subst h
    rfl

/-- C4 counterexample: a successful (non-404) `POST /audit` call can
return the empty findings list — when the provider replies with the valid
empty JSON array `[]`, the parse succeeds, the findings loop runs zero
times, and no degrade-gracefully placeholder is inserted.  This refutes
the claim that the non-404 path never returns an empty list. -/
theorem c4_counterexample :
    document_exists [⟨"docA".toList, "a.pdf".toList, "text".toList, 1⟩] ("docA".toList) = true ∧
    audit_endpoint [⟨"docA".toList, "a.pdf".toList, "text".toList, 1⟩] ("docA".toList)
      (Except.ok ("[]".toList)) = Except.ok [] :=
  ⟨rfl, rfl⟩

/-- The map `mapExcept` on a cons never produces an empty success list. -/
theorem mapExcept_cons_ne_ok_nil {α β : Type} (f : α → Except (List Char) β)
    (x : α) (xs : List α) : mapExcept f (x :: xs) ≠ Except.ok [] := by
  intro h
  unfold mapExcept at h
  cases hfx : f x with
  | error e => rw [hfx] at h; exact Except.noConfusion h
  | ok y =>
    rw [hfx] at h
    cases hrest : mapExcept f xs with
    | error e => rw [hrest] at h; exact Except.noConfusion h
    | ok ys =>
      rw [hrest] at h
      exact List.noConfusion (Except.ok.inj h)

/-- The findings loop produces a successful empty list exactly on the
empty JSON iterables: empty array, empty object, empty string. -/
theorem findingsOfJson_ok_nil_iff (docId : List Char) (j : Jval) :
    findingsOfJson docId j = Except.ok [] ↔
      (j = Jval.arr [] ∨ j = Jval.obj [] ∨ j = Jval.str []) := by
  cases j with
  | null => simp [findingsOfJson, iterElems]
  | bool b => simp [findingsOfJson, iterElems]
  | num q => simp [findingsOfJson, iterElems]
  | str s =>
    cases s with
    | nil => simp [findingsOfJson, iterElems, mapExcept]
    | cons c cs => simp [findingsOfJson, iterElems]
  | arr xs =>
    cases xs with
    | nil => simp [findingsOfJson, iterElems, mapExcept]
    | cons x rest =>
      simp only [findingsOfJson, iterElems]
      constructor
      · intro h
        exact absurd h (mapExcept_cons_ne_ok_nil _ _ _)
      · rintro (h | h | h) <;> simp at h
  | obj kvs =>
    cases kvs with
    | nil => simp [findingsOfJson, iterElems, mapExcept]
    | cons kv rest => simp [findingsOfJson, iterElems]

/-- The reshaping step after a successful parse yields an empty findings
list exactly on the empty JSON iterables. -/
theorem auditFindings_nil_iff (docId : List Char) (j : Jval) :
    (match findingsOfJson docId j with
     | Except.ok fs => fs
     | Except.error e => [auditErrorFinding docId e]) = [] ↔
      (j = Jval.arr [] ∨ j = Jval.obj [] ∨ j = Jval.str []) := by
  cases hfs : findingsOfJson docId j with
  | ok fs =>
    have h2 := findingsOfJson_ok_nil_iff docId j
    rw [hfs] at h2
    simpa using h2
  | error err =>
    constructor
    · intro hfalse
      simp at hfalse
    · rintro (hc | hc | hc) <;>
        · subst hc
          simp [findingsOfJson, iterElems, mapExcept] at hfs

/-- C4 amended: on an existing document the `POST /audit` endpoint always
succeeds with the service findings; a provider-call failure still yields
one (error) finding; but the findings list is empty exactly when the
cleaned provider reply parses as an empty JSON iterable — the empty array
`[]` (or, through the same loop, an empty object or empty string).  So the
success path is *not* always non-empty: the degrade-gracefully placeholder
appears only when JSON parsing fails. -/
theorem c4_audit_success_findings (st : List Doc) (docId raw e : List Char)
    (h : document_exists st docId = true) :
    audit_endpoint st docId (Except.ok raw) =
      Except.ok (audit_document st docId (Except.ok raw)) ∧
    audit_document st docId (Except.error e) = [auditErrorFinding docId e] ∧
    (audit_document st docId (Except.ok raw) = [] ↔
      (json_loads (cleanReply raw) = some (Jval.arr []) ∨
       json_loads (cleanReply raw) = some (Jval.obj []) ∨
       json_loads (cleanReply raw) = some (Jval.str []))) := by
  obtain ⟨d, hd⟩ := Option.isSome_iff_exists.mp h
  refine ⟨by simp [audit_endpoint, h], by simp [audit_document, hd], ?_⟩
  simp only [audit_document, hd]
  cases hj : json_loads (cleanReply raw) with
  | none => simp
  | some j => simpa using auditFindings_nil_iff docId j

/-- Witness for C4 amended at a one-document store and the reply `[]`. -/
theorem c4_audit_success_findings_witness :
    document_exists [⟨"docB".toList, "b.pdf".toList, "text".toList, 1⟩] ("docB".toList) = true ∧
    (audit_endpoint [⟨"docB".toList, "b.pdf".toList, "text".toList, 1⟩] ("docB".toList)
        (Except.ok ("[]".toList)) =
      Except.ok (audit_document [⟨"docB".toList, "b.pdf".toList, "text".toList, 1⟩]
        ("docB".toList) (Except.ok ("[]".toList))) ∧
    audit_document [⟨"docB".toList, "b.pdf".toList, "text".toList, 1⟩] ("docB".toList)
        (Except.error ("boom".toList)) =
      [auditErrorFinding ("docB".toList) ("boom".toList)] ∧
    (audit_document [⟨"docB".toList, "b.pdf".toList, "text".toList, 1⟩] ("docB".toList)
        (Except.ok ("[]".toList)) = [] ↔
      (json_loads (cleanReply ("[]".toList)) = some (Jval.arr []) ∨
       json_loads (cleanReply ("[]".toList)) = some (Jval.obj []) ∨
       json_loads (cleanReply ("[]".toList)) = some (Jval.str [])))) :=
  ⟨rfl, c4_audit_success_findings _ _ _ _ rfl⟩

/-- Unfolding of the citation scan on a cons cell. -/
theorem extract_citations_cons (answer : List Char) (hd : Doc) (tl : List Doc) :
    extract_citations answer (hd :: tl) =
      (if substringOf hd.id answer || substringOf hd.filename answer then
        [⟨hd.id, (findPageMarkers hd.text).head?, none, none, hd.text.take 200⟩]
      else []) ++ extract_citations answer tl := by
  unfold extract_citations
  rw [List.filterMap_cons]
  by_cases hcond : (substringOf hd.id answer || substringOf hd.filename answer) = true
  · rw [if_pos hcond, if_pos hcond]
    rfl
  · rw [if_neg hcond, if_neg hcond]
    rfl

/-- Every emitted citation carries the id of one of the scanned documents. -/
theorem extract_citations_id_mem (answer : List Char) (docs : List Doc) (c : Citation)
    (hc : c ∈ extract_citations answer docs) : c.document_id ∈ docs.map Doc.id := by
  unfold extract_citations at hc
  obtain ⟨a, ha, hfa⟩ := List.mem_filterMap.mp hc
  split at hfa
  · have hca := Option.some.inj hfa
    subst hca
    exact List.mem_map.mpr ⟨a, ha, rfl⟩
  · exact Option.noConfusion hfa

/-- C1: over a store with pairwise-distinct document ids, the citation
heuristic emits exactly one citation for a stored document iff the
document's id or filename occurs verbatim in the answer text; that
citation's page is the number of the first `[PAGE <n>]` marker of the
document's text (absent when there is none) and its snippet is the first
200 characters of the document's text — independent of where in the
document the relevant content appears. -/
theorem c1_citation_heuristic (docs : List Doc) (answer : List Char) (d : Doc)
    (hmem : d ∈ docs) (hnd : (docs.map Doc.id).Nodup) :
    (extract_citations answer docs).filter (fun c => decide (c.document_id = d.id)) =
      (if substringOf d.id answer || substringOf d.filename answer then
        [⟨d.id, (findPageMarkers d.text).head?, none, none, d.text.take 200⟩]
      else []) := by
  induction docs with
  | nil => cases hmem
  | cons hd tl ih =>
    have hpair := List.nodup_cons.mp hnd
    rcases List.mem_cons.mp hmem with heq | hmemtl
    · subst heq
      rw [extract_citations_cons, List.filter_append]
      have hrec : (extract_citations answer tl).filter
          (fun c => decide (c.document_id = d.id)) = [] := by
        apply List.filter_eq_nil_iff.mpr
        intro c hcmem hdec
        have hidmem := extract_citations_id_mem answer tl c hcmem
        have hceq : c.document_id = d.id := of_decide_eq_true hdec
        exact hpair.1 (hceq ▸ hidmem)
      rw [hrec]
      by_cases hcond : (substringOf d.id answer || substringOf d.filename answer) = true
      · simp [hcond, List.filter]
      · simp [hcond]
    · have hne : hd.id ≠ d.id := by
        intro he
        exact hpair.1 (he ▸ List.mem_map.mpr ⟨d, hmemtl, rfl⟩)
      rw [extract_citations_cons, List.filter_append]
      have hfront : ((if substringOf hd.id answer || substringOf hd.filename answer then
          [(⟨hd.id, (findPageMarkers hd.text).head?, none, none, hd.text.take 200⟩ : Citation)]
        else []) : List Citation).filter (fun c => decide (c.document_id = d.id)) = [] := by
        by_cases hcond : (substringOf hd.id answer || substringOf hd.filename answer) = true
        · simp [hcond, List.filter, hne]
        · simp [hcond]
      rw [hfront]
      simpa using ih hmemtl hpair.2

/-- Witness for C1 at a one-document store whose id occurs in the answer;
the document's first page marker is `[PAGE 3]`. -/
theorem c1_citation_heuristic_witness :
    (⟨"docA".toList, "contract.pdf".toList, "ab[PAGE 3]cd[PAGE 7]".toList, 2⟩ : Doc) ∈
      ([⟨"docA".toList, "contract.pdf".toList, "ab[PAGE 3]cd[PAGE 7]".toList, 2⟩] : List Doc) ∧
    (([⟨"docA".toList, "contract.pdf".toList, "ab[PAGE 3]cd[PAGE 7]".toList, 2⟩] :
        List Doc).map Doc.id).Nodup ∧
    (extract_citations ("See docA here".toList)
        [⟨"docA".toList, "contract.pdf".toList, "ab[PAGE 3]cd[PAGE 7]".toList, 2⟩]).filter
        (fun c => decide (c.document_id = "docA".toList)) =
      (if substringOf ("docA".toList) ("See docA here".toList) ||
          substringOf ("contract.pdf".toList) ("See docA here".toList) then
        [⟨"docA".toList, (findPageMarkers ("ab[PAGE 3]cd[PAGE 7]".toList)).head?, none, none,
          ("ab[PAGE 3]cd[PAGE 7]".toList).take 200⟩]
      else []) := by
  refine ⟨?_, ?_, ?_⟩
  · decide
  · decide
  · exact c1_citation_heuristic
      [⟨"docA".toList, "contract.pdf".toList, "ab[PAGE 3]cd[PAGE 7]".toList, 2⟩]
      ("See docA here".toList)
      ⟨"docA".toList, "contract.pdf".toList, "ab[PAGE 3]cd[PAGE 7]".toList, 2⟩
      (by decide) (by decide)

/-- Invariant of the ingestion loop: the processed count is the number of
successful files, the collected warnings are exactly one message per
failed file in order, and one id is returned per processed file —
independently of the starting store. -/
theorem ingestLoop_spec (files : List IngestFile) : ∀ st : List Doc,
    (ingestLoop st files).processed_count = files.countP isSuccessFile ∧
    (ingestLoop st files).errors = (files.filter (fun f => !isSuccessFile f)).map failMsgOf ∧
    (ingestLoop st files).document_ids.length = files.countP isSuccessFile := by
  induction files with
  | nil => intro st; exact ⟨rfl, rfl, rfl⟩
  | cons f fs ih =>
    intro st
    by_cases hp : ['.', 'p', 'd', 'f'] <:+ f.filename
    · cases hr : f.readResult with
      | ok pages =>
        have hs : isSuccessFile f = true := by
          simp [isSuccessFile, List.isSuffixOf_iff_suffix, hp, hr]
        obtain ⟨ih1, ih2, ih3⟩ := ih (store_document st
          ⟨generate_document_id f.filename (extract_text_from_pdf pages).1, f.filename,
           (extract_text_from_pdf pages).1, (extract_text_from_pdf pages).2⟩)
        simp [ingestLoop, List.isSuffixOf_iff_suffix, hp, hr, List.countP_cons,
          List.filter_cons, hs, ih1, ih2, ih3]
      | error e2 =>
        have hs : isSuccessFile f = false := by
          simp [isSuccessFile, List.isSuffixOf_iff_suffix, hp, hr]
        obtain ⟨ih1, ih2, ih3⟩ := ih st
        simp [ingestLoop, List.isSuffixOf_iff_suffix, hp, hr, List.countP_cons,
          List.filter_cons, hs, ih1, ih2, ih3, failMsgOf]
    · have hs : isSuccessFile f = false := by
        simp [isSuccessFile, List.isSuffixOf_iff_suffix, hp]
      obtain ⟨ih1, ih2, ih3⟩ := ih st
      simp [ingestLoop, List.isSuffixOf_iff_suffix, hp, List.countP_cons,
        List.filter_cons, hs, ih1, ih2, ih3, failMsgOf]

/-- C8 counterexample: the per-file warnings are only collected and
logged, never attached to the success response.  Two mixed batches that
differ only in their failed file produce the *same* `IngestResponse`
(which has exactly the fields `document_ids`, `message`,
`processed_count`) while their collected warnings differ, and the warning
text occurs nowhere in the response message. -/
theorem c8_counterexample :
    ingestRespOf (ingest_documents []
        [⟨"a.pdf".toList, Except.ok ["hello".toList]⟩,
         ⟨"b.txt".toList, Except.ok []⟩]) =
      ingestRespOf (ingest_documents []
        [⟨"a.pdf".toList, Except.ok ["hello".toList]⟩,
         ⟨"c.doc".toList, Except.ok []⟩]) ∧
    ingestLogOf (ingest_documents []
        [⟨"a.pdf".toList, Except.ok ["hello".toList]⟩,
         ⟨"b.txt".toList, Except.ok []⟩]) = some [skipMsg ("b.txt".toList)] ∧
    ingestLogOf (ingest_documents []
        [⟨"a.pdf".toList, Except.ok ["hello".toList]⟩,
         ⟨"c.doc".toList, Except.ok []⟩]) = some [skipMsg ("c.doc".toList)] ∧
    skipMsg ("b.txt".toList) ≠ skipMsg ("c.doc".toList) ∧
    substringOf (skipMsg ("b.txt".toList)) (successMsg 1) = false :=
  ⟨rfl, rfl, rfl, by decide, by decide⟩

/-- C8 amended: when at least one file of the batch succeeds, `/ingest`
succeeds; the response's `processed_count` equals the number of
successfully processed files and one document id is returned per success;
the per-file failure messages — one per failed file — are collected and
logged but are *not* part of the response; the call fails with a client
error only when the list is empty or every file failed. -/
theorem c8_ingest_partial_success (st : List Doc) (files : List IngestFile)
    (h : 0 < files.countP isSuccessFile) :
    ingestRespOf (ingest_documents st files) =
      some ⟨(ingestLoop st files).document_ids,
            successMsg (files.countP isSuccessFile),
            files.countP isSuccessFile⟩ ∧
    (ingestLoop st files).document_ids.length = files.countP isSuccessFile ∧
    ingestLogOf (ingest_documents st files) =
      some ((files.filter (fun f => !isSuccessFile f)).map failMsgOf) := by
  obtain ⟨h1, h2, h3⟩ := ingestLoop_spec files st
  have hfe : files.isEmpty = false := by
    cases files with
    | nil => simp at h
    | cons a l => rfl
  have hnz : ¬ (ingestLoop st files).processed_count = 0 := by
    rw [h1]
    omega
  have hmain : ingest_documents st files =
      Except.ok (⟨(ingestLoop st files).document_ids,
                  successMsg (files.countP isSuccessFile),
                  files.countP isSuccessFile⟩,
                 (files.filter (fun f => !isSuccessFile f)).map failMsgOf,
                 (ingestLoop st files).store) := by
    simp only [ingest_documents, hfe, Bool.false_eq_true, if_false]
    rw [if_neg hnz, h1, h2]
  exact ⟨by rw [hmain]; rfl, h3, by rw [hmain]; rfl⟩

/-- Witness for C8 amended at a batch of one good PDF and one non-PDF. -/
theorem c8_ingest_partial_success_witness :
    0 < ([⟨"a.pdf".toList, Except.ok ["hello".toList]⟩,
          ⟨"b.txt".toList, Except.ok []⟩] : List IngestFile).countP isSuccessFile ∧
    (ingestRespOf (ingest_documents []
        [⟨"a.pdf".toList, Except.ok ["hello".toList]⟩, ⟨"b.txt".toList, Except.ok []⟩]) =
      some ⟨(ingestLoop []
               [⟨"a.pdf".toList, Except.ok ["hello".toList]⟩,
                ⟨"b.txt".toList, Except.ok []⟩]).document_ids,
            successMsg (([⟨"a.pdf".toList, Except.ok ["hello".toList]⟩,
                          ⟨"b.txt".toList, Except.ok []⟩] : List IngestFile).countP isSuccessFile),
            ([⟨"a.pdf".toList, Except.ok ["hello".toList]⟩,
              ⟨"b.txt".toList, Except.ok []⟩] : List IngestFile).countP isSuccessFile⟩ ∧
    (ingestLoop []
        [⟨"a.pdf".toList, Except.ok ["hello".toList]⟩,
         ⟨"b.txt".toList, Except.ok []⟩]).document_ids.length =
      ([⟨"a.pdf".toList, Except.ok ["hello".toList]⟩,
        ⟨"b.txt".toList, Except.ok []⟩] : List IngestFile).countP isSuccessFile ∧
    ingestLogOf (ingest_documents []
        [⟨"a.pdf".toList, Except.ok ["hello".toList]⟩, ⟨"b.txt".toList, Except.ok []⟩]) =
      some ((([⟨"a.pdf".toList, Except.ok ["hello".toList]⟩,
               ⟨"b.txt".toList, Except.ok []⟩] : List IngestFile).filter
          (fun f => !isSuccessFile f)).map failMsgOf)) :=
  ⟨by decide,
   c8_ingest_partial_success []
     [⟨"a.pdf".toList, Except.ok ["hello".toList]⟩, ⟨"b.txt".toList, Except.ok []⟩]
     (by decide)⟩
